import Mathlib

/-!
# Verification of the POS QR-order-scanner repository

Shallow embedding of the repository's pure computational core:

* `simpleHash` and `generateQRCodeSVG` from `src/app/routes/api.orders.$id.qrcode.tsx`
* `parseQRCode` from `src/extensions/qr-order-scanner/src/Modal.tsx`
* the order-list filter mapping and limit clamping from the order-list loader
* the order-by-id GraphQL-id normalization
* the offline manager's in-memory state transitions from `OfflineManager.tsx`
* the response kinds (status / content type) of every route handler

JavaScript numbers are modelled as `Int`/`Nat` with explicit wrapping to the
signed 32-bit range where the source relies on it (`hash & hash`, `<<`), and
JS strings as Lean `String`s.  `charCodeAt` is modelled by `Char.toNat`; this
agrees with JS on all code points of the Basic Multilingual Plane (JS works on
UTF-16 code units), which covers every string these routes construct.
-/

namespace PosQr

/-- JS `ToInt32`: wrap an integer to the signed 32-bit range
`[-2^31, 2^31)`, as performed by `hash & hash` and `<<` in the source. -/
def toInt32 (n : Int) : Int := (n + 2 ^ 31) % 2 ^ 32 - 2 ^ 31

/-- One step of `simpleHash`'s loop
(`hash = ((hash << 5) - hash) + char; hash = hash & hash`) from
`src/app/routes/api.orders.$id.qrcode.tsx`.  `hash << 5` wraps its result to
32 bits; the subtraction and addition are exact (they stay far below 2^53);
`hash & hash` wraps the sum back to 32 bits. -/
def hashStep (h : Int) (c : Char) : Int := toInt32 (toInt32 (h * 32) - h + c.toNat)

/-- `simpleHash` from `src/app/routes/api.orders.$id.qrcode.tsx`:
fold the step over the characters starting from 0, then `Math.abs`. -/
def simpleHash (s : String) : Nat := (s.data.foldl hashStep 0).natAbs

theorem toInt32_lb (n : Int) : -2 ^ 31 ≤ toInt32 n := by
  have h : 0 ≤ (n + 2 ^ 31) % 2 ^ 32 := Int.emod_nonneg _ (by norm_num)
  unfold toInt32; omega

theorem toInt32_ub (n : Int) : toInt32 n < 2 ^ 31 := by
  have h : (n + 2 ^ 31) % 2 ^ 32 < 2 ^ 32 := Int.emod_lt_of_pos _ (by norm_num)
  unfold toInt32; omega

theorem foldl_hashStep_range (l : List Char) (h : Int)
    (hlb : -2 ^ 31 ≤ h) (hub : h < 2 ^ 31) :
    -2 ^ 31 ≤ l.foldl hashStep h ∧ l.foldl hashStep h < 2 ^ 31 := by
  induction l generalizing h with
  | nil => exact ⟨hlb, hub⟩
  | cons c cs ih =>
      exact ih (hashStep h c) (toInt32_lb _) (toInt32_ub _)

/-! ## JSON values and `JSON.parse`

`parseQRCode` (pattern 5) and the QR route's `json` payload rely on JS
`JSON.parse`.  We embed it over `List Char`.  Numbers are kept as exact
rationals (JS converts to binary floating point; for the claims below only
zero-versus-nonzero matters and no payload of this repository hits a rounding
difference).  Lone-surrogate `\uXXXX` escapes are mapped through `Char.ofNat`'s
total fallback; no string this repository produces contains them. -/

/-- JSON values as produced by `JSON.parse`. -/
inductive Json where
  | jnull : Json
  | jbool : Bool → Json
  | jnum : ℚ → Json
  | jstr : String → Json
  | jarr : List Json → Json
  | jobj : List (String × Json) → Json
  deriving Inhabited

/-- JSON insignificant whitespace. -/
def isJsonWs (c : Char) : Bool := c = ' ' || c = '\t' || c = '\n' || c = '\r'

/-- Value of a hexadecimal digit, `none` if not one. -/
def hexVal (c : Char) : Option Nat :=
  let n := c.toNat
  if 48 ≤ n ∧ n ≤ 57 then some (n - 48)
  else if 97 ≤ n ∧ n ≤ 102 then some (n - 87)
  else if 65 ≤ n ∧ n ≤ 70 then some (n - 55)
  else none

/-- Code point of a `\uXXXX` escape, `none` unless all four are hex digits. -/
def hexQuad (a b c d : Char) : Option Nat :=
  match hexVal a, hexVal b, hexVal c, hexVal d with
  | some x, some y, some z, some w => some (4096 * x + 256 * y + 16 * z + w)
  | _, _, _, _ => none

/-- Single-character JSON string escapes. -/
def escChar : Char → Option Char
  | '"' => some '"'
  | '\\' => some '\\'
  | '/' => some '/'
  | 'b' => some (Char.ofNat 8)
  | 'f' => some (Char.ofNat 12)
  | 'n' => some '\n'
  | 'r' => some '\r'
  | 't' => some '\t'
  | _ => none

/-- Body of a JSON string after the opening quote: returns the decoded
content and the input after the closing quote.  Raw control characters
(below `U+0020`) are a syntax error, as in `JSON.parse`. -/
def parseStringBody : List Char → Option (List Char × List Char)
  | [] => none
  | c :: rest =>
    if c = '"' then some ([], rest)
    else if c = '\\' then
      match rest with
      | 'u' :: a :: b :: c2 :: d :: rest' =>
        match hexQuad a b c2 d with
        | some code => (parseStringBody rest').map fun p => (Char.ofNat code :: p.1, p.2)
        | none => none
      | e :: rest' =>
        match escChar e with
        | some c3 => (parseStringBody rest').map fun p => (c3 :: p.1, p.2)
        | none => none
      | [] => none
    else if 0x20 ≤ c.toNat then (parseStringBody rest).map fun p => (c :: p.1, p.2)
    else none

/-- Decimal value of a digit list. -/
def digitsVal (l : List Char) : Nat :=
  l.foldl (fun acc c => 10 * acc + (c.toNat - 48)) 0

/-- Optional fraction part of a JSON number. -/
def parseFrac : List Char → Option (ℚ × List Char)
  | '.' :: r =>
    let fs := r.takeWhile Char.isDigit
    if fs.isEmpty then none
    else some ((digitsVal fs : ℚ) / (10 : ℚ) ^ fs.length, r.dropWhile Char.isDigit)
  | s => some (0, s)

/-- Optional exponent part of a JSON number. -/
def parseExp : List Char → Option (Int × List Char)
  | [] => some (0, [])
  | c :: r =>
    if c = 'e' ∨ c = 'E' then
      let eneg : Bool := r.head? = some '-'
      let r1 := if r.head? = some '-' ∨ r.head? = some '+' then r.tail else r
      let es := r1.takeWhile Char.isDigit
      if es.isEmpty then none
      else some ((if eneg then -(digitsVal es : Int) else digitsVal es),
        r1.dropWhile Char.isDigit)
    else some (0, c :: r)

/-- A JSON number per the JSON grammar (`-? int frac? exp?`, no leading
zeros), valued as an exact rational. -/
def parseNum (s : List Char) : Option (ℚ × List Char) :=
  let neg : Bool := s.head? = some '-'
  let s1 := if neg then s.tail else s
  let ds := s1.takeWhile Char.isDigit
  if ds.isEmpty then none
  else if 1 < ds.length ∧ ds.headI = '0' then none
  else
    match parseFrac (s1.dropWhile Char.isDigit) with
    | none => none
    | some (f, r2) =>
      match parseExp r2 with
      | none => none
      | some (e, r3) =>
        let mag : ℚ := ((digitsVal ds : ℚ) + f) * (10 : ℚ) ^ e
        some (if neg then -mag else mag, r3)

mutual

/-- A JSON value (fuel-indexed; the fuel bounds nesting and element count and
is instantiated generously at the top level). -/
def parseValue : Nat → List Char → Option (Json × List Char)
  | 0, _ => none
  | fuel + 1, s =>
    match s.dropWhile isJsonWs with
    | 'n' :: 'u' :: 'l' :: 'l' :: r => some (.jnull, r)
    | 't' :: 'r' :: 'u' :: 'e' :: r => some (.jbool true, r)
    | 'f' :: 'a' :: 'l' :: 's' :: 'e' :: r => some (.jbool false, r)
    | '"' :: r => (parseStringBody r).map fun p => (.jstr ⟨p.1⟩, p.2)
    | '[' :: r =>
      (match r.dropWhile isJsonWs with
       | ']' :: r' => some (.jarr [], r')
       | _ => (parseElems fuel r).map fun p => (.jarr p.1, p.2))
    | '{' :: r =>
      (match r.dropWhile isJsonWs with
       | '}' :: r' => some (.jobj [], r')
       | _ => (parseMembers fuel r).map fun p => (.jobj p.1, p.2))
    | s' => (parseNum s').map fun p => (.jnum p.1, p.2)
termination_by structural fuel _ => fuel

/-- Comma-separated array elements up to the closing bracket. -/
def parseElems : Nat → List Char → Option (List Json × List Char)
  | 0, _ => none
  | fuel + 1, s =>
    match parseValue fuel s with
    | none => none
    | some (v, r) =>
      match r.dropWhile isJsonWs with
      | ',' :: r' => (parseElems fuel r').map fun p => (v :: p.1, p.2)
      | ']' :: r' => some ([v], r')
      | _ => none
termination_by structural fuel _ => fuel

/-- Comma-separated `"key": value` members up to the closing brace. -/
def parseMembers : Nat → List Char → Option (List (String × Json) × List Char)
  | 0, _ => none
  | fuel + 1, s =>
    match s.dropWhile isJsonWs with
    | '"' :: r =>
      (match parseStringBody r with
       | none => none
       | some (k, r1) =>
         match r1.dropWhile isJsonWs with
         | ':' :: r2 =>
           (match parseValue fuel r2 with
            | none => none
            | some (v, r3) =>
              match r3.dropWhile isJsonWs with
              | ',' :: r4 => (parseMembers fuel r4).map fun p => ((⟨k⟩, v) :: p.1, p.2)
              | '}' :: r4 => some ([(⟨k⟩, v)], r4)
              | _ => none)
         | _ => none)
    | _ => none
termination_by structural fuel _ => fuel

end

/-- JS `JSON.parse`: parse one value, allow only trailing whitespace. -/
def jsonParse (s : String) : Option Json :=
  match parseValue (s.length + 1) s.data with
  | some (v, r) => if (r.dropWhile isJsonWs).isEmpty then some v else none
  | none => none

/-- JS truthiness of a parsed JSON value (`null`, `false`, `0`, `""` are
falsy; objects and arrays are truthy). -/
def jsTruthy : Json → Bool
  | .jnull => false
  | .jbool b => b
  | .jnum q => decide (q ≠ 0)
  | .jstr s => decide (s ≠ "")
  | .jarr _ => true
  | .jobj _ => true

/-- JS property access `j.k` on a `JSON.parse` result: the last binding of the
key on an object (later duplicate keys win), otherwise `none`, modelling
`undefined` — and, for `null`, the thrown `TypeError`, which the source's
surrounding `try` swallows with the same outcome (pattern 5 yields nothing). -/
def jsGetField : Json → String → Option Json
  | .jobj fs, k => (fs.reverse.find? (fun p => p.1 == k)).map Prod.snd
  | _, _ => none

/-- Value of the JS chain `j.k₁ || j.k₂ || …`: the first truthy field,
`none` when every field is absent or falsy. -/
def firstTruthyOf (j : Json) : List String → Option Json
  | [] => none
  | k :: ks =>
    match jsGetField j k with
    | some v => if jsTruthy v then some v else firstTruthyOf j ks
    | none => firstTruthyOf j ks

/-! ## The order-identifier parser `parseQRCode`
from `src/extensions/qr-order-scanner/src/Modal.tsx` lines 117–160. -/

/-- Drop `pat` from the front of a character list if it is literally there. -/
def dropPat : List Char → List Char → Option (List Char)
  | [], s => some s
  | _ :: _, [] => none
  | p :: ps, c :: cs => if p = c then dropPat ps cs else none

/-- Leftmost match of an unanchored JS regex `pat(\d+)`, where `pat` is a
literal: at each start position in turn, the literal must match and be
followed by at least one digit; the capture is the maximal digit run there.
Models `qrData.match(/\/orders\/(\d+)/)` and
`qrData.match(/gid:\/\/shopify\/Order\/(\d+)/)`. -/
def searchDigitsAfter (pat : List Char) : List Char → Option (List Char)
  | [] => none
  | c :: rest =>
    match dropPat pat (c :: rest) with
    | some after =>
      let ds := after.takeWhile Char.isDigit
      if ds.isEmpty then searchDigitsAfter pat rest else some ds
    | none => searchDigitsAfter pat rest

/-- `qrData.match(/^#(\d+)$/)`: the whole string is `#` followed by one or
more digits; the capture is the digits. -/
def hashMatch (s : String) : Option String :=
  match s.data with
  | c :: rest =>
    if c = '#' then
      if rest.isEmpty then none
      else if rest.all Char.isDigit then some ⟨rest⟩ else none
    else none
  | [] => none

/-- `qrData.match(/^\d+$/)`: the whole string is one or more digits. -/
def numberMatch (s : String) : Bool :=
  !s.data.isEmpty && s.data.all Char.isDigit

/-- `parseQRCode` from `Modal.tsx`: five patterns tried in order; pattern 2
returns the input itself, patterns 1, 3 and 4 return the captured digit
group, pattern 5 returns the first truthy of `orderId`, `order_id`, `id` on
the parsed JSON value.  The result is the JS value returned (a string for
patterns 1–4, any JSON value for pattern 5), `none` for `null`. -/
def parseQRCode (qrData : String) : Option Json :=
  match hashMatch qrData with
  | some d => some (.jstr d)
  | none =>
    if numberMatch qrData then some (.jstr qrData)
    else
      match searchDigitsAfter "/orders/".data qrData.data with
      | some ds => some (.jstr ⟨ds⟩)
      | none =>
        match searchDigitsAfter "gid://shopify/Order/".data qrData.data with
        | some ds => some (.jstr ⟨ds⟩)
        | none =>
          match jsonParse qrData with
          | some j => firstTruthyOf j ["orderId", "order_id", "id"]
          | none => none

/-! ### The strategy-list reading of the parser (from the spec's words):
an ordered list of independent matchers, tried in priority order. -/

/-- Matcher 1: hash-prefixed (`#` followed by digits). -/
def matcherHash (s : String) : Option Json := (hashMatch s).map .jstr

/-- Matcher 2: digits only (normalized identifier is the string itself). -/
def matcherNumber (s : String) : Option Json :=
  if numberMatch s then some (.jstr s) else none

/-- Matcher 3: an embedded `/orders/<digits>` URL segment. -/
def matcherUrl (s : String) : Option Json :=
  (searchDigitsAfter "/orders/".data s.data).map fun ds => .jstr ⟨ds⟩

/-- Matcher 4: an embedded `gid://shopify/Order/<digits>` global id. -/
def matcherGid (s : String) : Option Json :=
  (searchDigitsAfter "gid://shopify/Order/".data s.data).map fun ds => .jstr ⟨ds⟩

/-- Matcher 5: a JSON payload with a truthy `orderId`, `order_id` or `id`. -/
def matcherJson (s : String) : Option Json :=
  (jsonParse s).bind fun j => firstTruthyOf j ["orderId", "order_id", "id"]

/-- The parser as the spec describes it: a fixed priority list. -/
def orderIdMatchers : List (String → Option Json) :=
  [matcherHash, matcherNumber, matcherUrl, matcherGid, matcherJson]

/-- Try matchers in order, returning the first hit. -/
def tryMatchers : List (String → Option Json) → String → Option Json
  | [], _ => none
  | m :: ms, s =>
    match m s with
    | some v => some v
    | none => tryMatchers ms s

/-- C1: for every input string, `parseQRCode` is exactly the strategy list —
five independent matchers (hash-prefixed, digits-only, `/orders/<digits>`,
`gid://shopify/Order/<digits>`, JSON with truthy `orderId`/`order_id`/`id`)
tried in fixed priority order, returning the first matcher's normalized
identifier and `none` when no matcher matches. -/
theorem C1_parser_is_ordered_matcher_list (s : String) :
    parseQRCode s = tryMatchers orderIdMatchers s := by
  unfold parseQRCode
  cases h1 : hashMatch s with
  | some d => simp [tryMatchers, orderIdMatchers, matcherHash, h1]
  | none =>
    by_cases h2 : numberMatch s
    · simp [tryMatchers, orderIdMatchers, matcherHash, matcherNumber, h1, h2]
    · cases h3 : searchDigitsAfter "/orders/".data s.data with
      | some ds =>
        simp [tryMatchers, orderIdMatchers, matcherHash, matcherNumber, matcherUrl, h1, h2, h3]
      | none =>
        cases h4 : searchDigitsAfter "gid://shopify/Order/".data s.data with
        | some ds =>
          simp [tryMatchers, orderIdMatchers, matcherHash, matcherNumber, matcherUrl, matcherGid,
            h1, h2, h3, h4]
        | none =>
          cases h5 : jsonParse s with
          | some j =>
            cases h6 : firstTruthyOf j ["orderId", "order_id", "id"] <;>
              simp [tryMatchers, orderIdMatchers, matcherHash, matcherNumber, matcherUrl,
                matcherGid, matcherJson, h1, h2, h3, h4, h5, h6]
          | none =>
            simp [tryMatchers, orderIdMatchers, matcherHash, matcherNumber, matcherUrl, matcherGid,
              matcherJson, h1, h2, h3, h4, h5]

/-- C1 witness: the theorem applied at the concrete input
`gid://shopify/Order/555`, where matcher 4 fires. -/
theorem C1_parser_is_ordered_matcher_list_witness :
    parseQRCode "gid://shopify/Order/555" = tryMatchers orderIdMatchers "gid://shopify/Order/555" ∧
    parseQRCode "gid://shopify/Order/555" = some (.jstr "555") :=
  ⟨C1_parser_is_ordered_matcher_list "gid://shopify/Order/555", rfl⟩

/-- C10: `simpleHash` is total (a single structural fold over the characters,
wrapping to the signed 32-bit range at each step by construction of
`hashStep`) and its result — the absolute value of the final 32-bit value —
always lies in `[0, 2^31]`; equal strings yield equal hashes. -/
theorem C10_simpleHash_total_bounded (s : String) :
    simpleHash s ≤ 2 ^ 31 ∧ ∀ t, s = t → simpleHash s = simpleHash t := by
  refine ⟨?_, fun t h => by rw [h]⟩
  have h := foldl_hashStep_range s.data 0 (by norm_num) (by norm_num)
  unfold simpleHash
  omega

/-- C10 witness: the bound and congruence at the concrete string `"abc"`
(whose hash the embedded fold evaluates to 96354, as the JS code does). -/
theorem C10_simpleHash_total_bounded_witness :
    simpleHash "abc" ≤ 2 ^ 31 ∧ simpleHash "abc" = simpleHash "abc" ∧ simpleHash "abc" = 96354 :=
  ⟨(C10_simpleHash_total_bounded "abc").1,
   (C10_simpleHash_total_bounded "abc").2 "abc" rfl, by decide⟩

/-! ## Order-by-id GraphQL-id normalization
from `src/unnamed/part_001` lines 153–163 (and `api.orders.$id.tsx`):
`orderId.startsWith('gid://') ? orderId : `gid://shopify/Order/${orderId}`` -/

/-- JS `String.prototype.startsWith` on whole strings. -/
def jsStartsWith (s pre : String) : Bool := (dropPat pre.data s.data).isSome

/-- The order-by-id route's identifier normalization (`gqlOrderId`). -/
def toGqlOrderId (orderId : String) : String :=
  if jsStartsWith orderId "gid://" then orderId else "gid://shopify/Order/" ++ orderId

/-- C7: normalization leaves `gid://`-prefixed ids unchanged, prefixes every
other id with `gid://shopify/Order/`, and is idempotent. -/
theorem C7_gql_id_normalization_idempotent (id : String) :
    (jsStartsWith id "gid://" = true → toGqlOrderId id = id) ∧
    (jsStartsWith id "gid://" = false → toGqlOrderId id = "gid://shopify/Order/" ++ id) ∧
    toGqlOrderId (toGqlOrderId id) = toGqlOrderId id := by
  refine ⟨fun h => by simp [toGqlOrderId, h], fun h => by simp [toGqlOrderId, h], ?_⟩
  by_cases h : jsStartsWith id "gid://"
  · simp [toGqlOrderId, h]
  · have h2 : jsStartsWith ("gid://shopify/Order/" ++ id) "gid://" = true := by
      simp +decide [jsStartsWith, dropPat]
    simp [toGqlOrderId, h, h2]

/-- C7 witness: normalization at the plain id `"1179"` and at an
already-normalized id. -/
theorem C7_gql_id_normalization_idempotent_witness :
    (jsStartsWith "1179" "gid://" = false →
      toGqlOrderId "1179" = "gid://shopify/Order/" ++ "1179") ∧
    toGqlOrderId (toGqlOrderId "1179") = toGqlOrderId "1179" ∧
    (jsStartsWith "gid://shopify/Order/9" "gid://" = true →
      toGqlOrderId "gid://shopify/Order/9" = "gid://shopify/Order/9") :=
  ⟨(C7_gql_id_normalization_idempotent "1179").2.1,
   (C7_gql_id_normalization_idempotent "1179").2.2,
   (C7_gql_id_normalization_idempotent "gid://shopify/Order/9").1⟩

/-! ## Order-list filter mapping
from `src/unnamed/part_000` lines 533–563.  `today` and `weekAgo` stand for
`new Date().toISOString().split('T')[0]` now and seven days ago; the clock is
a parameter of the embedding. -/

/-- The `switch (filter)` building the upstream search query (`''` when the
filter is absent or empty, since the `switch` is guarded by `if (filter)`). -/
def buildOrderListQuery (filter today weekAgo : String) : String :=
  if filter = "" then ""
  else if filter = "today" then "created_at:>=" ++ today
  else if filter = "week" then "created_at:>=" ++ weekAgo
  else if filter = "pending" then "fulfillment_status:unfulfilled"
  else if filter = "fulfilled" then "fulfillment_status:fulfilled"
  else if filter = "paid" then "financial_status:paid"
  else if filter = "unpaid" then "financial_status:pending OR financial_status:authorized"
  else filter

/-- The `query` GraphQL variable actually sent: `query || undefined`. -/
def orderListQueryParam (filter today weekAgo : String) : Option String :=
  let q := buildOrderListQuery filter today weekAgo
  if q = "" then none else some q

/-- C6: the fixed filter-to-query mapping of the order-list route — `today`,
`week`, `pending`, `fulfilled`, `paid`, `unpaid` map to their fixed search
conditions, an absent or empty filter sends no query condition, and any other
non-empty filter passes through unchanged. -/
theorem C6_order_list_filter_mapping (today weekAgo : String) :
    orderListQueryParam "today" today weekAgo = some ("created_at:>=" ++ today) ∧
    orderListQueryParam "week" today weekAgo = some ("created_at:>=" ++ weekAgo) ∧
    orderListQueryParam "pending" today weekAgo = some "fulfillment_status:unfulfilled" ∧
    orderListQueryParam "fulfilled" today weekAgo = some "fulfillment_status:fulfilled" ∧
    orderListQueryParam "paid" today weekAgo = some "financial_status:paid" ∧
    orderListQueryParam "unpaid" today weekAgo =
      some "financial_status:pending OR financial_status:authorized" ∧
    orderListQueryParam "" today weekAgo = none ∧
    ∀ f : String, f ≠ "" →
      f ∉ (["today", "week", "pending", "fulfilled", "paid", "unpaid"] : List String) →
      orderListQueryParam f today weekAgo = some f := by
  refine ⟨?_, ?_, by simp +decide [orderListQueryParam, buildOrderListQuery],
    by simp +decide [orderListQueryParam, buildOrderListQuery],
    by simp +decide [orderListQueryParam, buildOrderListQuery],
    by simp +decide [orderListQueryParam, buildOrderListQuery],
    by simp +decide [orderListQueryParam, buildOrderListQuery], ?_⟩
  · simp +decide [orderListQueryParam, buildOrderListQuery, String.ext_iff, String.data_append]
  · simp +decide [orderListQueryParam, buildOrderListQuery, String.ext_iff, String.data_append]
  · intro f h1 h2
    simp only [List.mem_cons, List.mem_singleton, not_or] at h2
    obtain ⟨n1, n2, n3, n4, n5, n6⟩ := h2
    simp [orderListQueryParam, buildOrderListQuery, h1, n1, n2, n3, n4, n5, n6]

/-- C6 witness: the mapping at a concrete clock and a concrete pass-through
filter. -/
theorem C6_order_list_filter_mapping_witness :
    orderListQueryParam "today" "2024-06-01" "2024-05-25" =
      some ("created_at:>=" ++ "2024-06-01") ∧
    orderListQueryParam "" "2024-06-01" "2024-05-25" = none ∧
    orderListQueryParam "status:open" "2024-06-01" "2024-05-25" = some "status:open" :=
  ⟨(C6_order_list_filter_mapping "2024-06-01" "2024-05-25").1,
   (C6_order_list_filter_mapping "2024-06-01" "2024-05-25").2.2.2.2.2.2.1,
   (C6_order_list_filter_mapping "2024-06-01" "2024-05-25").2.2.2.2.2.2.2
     "status:open" (by decide) (by decide)⟩

/-! ## Request limits
`Math.min(parseInt(url.searchParams.get('limit') || '20'), 100)` in the
order-list loader (`src/unnamed/part_000` lines 520–523) and
`Math.min(parseInt(url.searchParams.get('limit') || '5'), 10)` in
`api.orders.simple-list.tsx` lines 55–58.  `jsParseInt` models JS
`parseInt` with no radix argument: skip leading whitespace, optional sign,
auto-detect a `0x`/`0X` prefix (radix 16), then take the longest digit
prefix; `none` models `NaN`.  `Option.map` propagates `NaN` through
`Math.min` as JS does. -/

/-- JS `StrWhiteSpace` characters relevant to `parseInt`
(space, tab, LF, CR, VT, FF). -/
def jsWs (c : Char) : Bool :=
  c.toNat = 32 || c.toNat = 9 || c.toNat = 10 || c.toNat = 13 || c.toNat = 11 || c.toNat = 12

/-- The sign factor of `parseInt`. -/
def jsSign (neg : Bool) : Int := if neg then -1 else 1

/-- Longest decimal digit prefix, `none` when there is none (`NaN`). -/
def parseDec (neg : Bool) (l : List Char) : Option Int :=
  let ds := l.takeWhile Char.isDigit
  if ds.isEmpty then none
  else some (jsSign neg * (digitsVal ds : Nat))

/-- Longest hexadecimal digit prefix, `none` when there is none (`NaN`). -/
def parseHexInt (neg : Bool) (l : List Char) : Option Int :=
  let hs := l.takeWhile fun c => (hexVal c).isSome
  if hs.isEmpty then none
  else some (jsSign neg * (hs.foldl (fun acc c => acc * 16 + (hexVal c).getD 0) 0 : Nat))

/-- `parseInt` after the sign: `0x`/`0X` switches to radix 16. -/
def jsParseIntAfterSign (neg : Bool) (l : List Char) : Option Int :=
  if l.head? = some '0' ∧ (l.tail.head? = some 'x' ∨ l.tail.head? = some 'X') then
    parseHexInt neg l.tail.tail
  else parseDec neg l

/-- `parseInt` after leading whitespace: an optional single sign. -/
def jsParseIntAfterWs (l : List Char) : Option Int :=
  if l.head? = some '-' then jsParseIntAfterSign true l.tail
  else if l.head? = some '+' then jsParseIntAfterSign false l.tail
  else jsParseIntAfterSign false l

/-- JS `parseInt(s)` (no radix argument). -/
def jsParseInt (s : String) : Option Int := jsParseIntAfterWs (s.data.dropWhile jsWs)

/-- The `first` GraphQL variable of the order-list route:
`Math.min(parseInt(limit || '20'), 100)` (`none` models `NaN`). -/
def orderListLimit (limitParam : Option String) : Option Int :=
  let raw := match limitParam with
    | none => "20"
    | some s => if s = "" then "20" else s
  (jsParseInt raw).map (fun n => min n 100)

/-- The `first` GraphQL variable of the simple-list route:
`Math.min(parseInt(limit || '5'), 10)` (`none` models `NaN`). -/
def simpleListLimit (limitParam : Option String) : Option Int :=
  let raw := match limitParam with
    | none => "5"
    | some s => if s = "" then "5" else s
  (jsParseInt raw).map (fun n => min n 10)

/-- A decimal integer string: an optional sign followed by one or more
decimal digits (the precondition of claim C9). -/
def isDecIntStr (s : String) : Bool :=
  if s.data.head? = some '-' ∨ s.data.head? = some '+' then
    !s.data.tail.isEmpty && s.data.tail.all Char.isDigit
  else !s.data.isEmpty && s.data.all Char.isDigit

theorem toNat_bounds_of_isDigit {c : Char} (h : c.isDigit = true) :
    48 ≤ c.toNat ∧ c.toNat ≤ 57 := by
  simp [Char.isDigit] at h
  exact ⟨h.1, h.2⟩

theorem jsWs_eq_false_of_isDigit {c : Char} (h : c.isDigit = true) : jsWs c = false := by
  have hb := toNat_bounds_of_isDigit h
  simp only [jsWs, Bool.or_eq_false_iff, decide_eq_false_iff_not]
  omega

/-- On a digit-headed all-digit list, `parseInt` past the sign takes every
digit and cannot enter the hexadecimal branch. -/
theorem jsParseIntAfterSign_digits (neg : Bool) {d : Char} {ds : List Char}
    (hd : d.isDigit = true) (hds : ds.all Char.isDigit = true) :
    jsParseIntAfterSign neg (d :: ds) = some (jsSign neg * (digitsVal (d :: ds) : Nat)) := by
  have htw : (d :: ds).takeWhile Char.isDigit = d :: ds := by
    refine List.takeWhile_eq_self_iff.mpr ?_
    intro a ha
    rcases List.mem_cons.mp ha with rfl | ha'
    · exact hd
    · exact List.all_eq_true.mp hds a ha'
  have hhex : ¬ ((d :: ds).head? = some '0' ∧
      ((d :: ds).tail.head? = some 'x' ∨ (d :: ds).tail.head? = some 'X')) := by
    rintro ⟨h0, hx | hx⟩ <;>
    · rcases ds with _ | ⟨e, es⟩
      · simp at hx
      · simp only [List.tail_cons, List.head?_cons, Option.some_inj] at hx
        subst hx
        simp only [List.all_cons, Bool.and_eq_true] at hds
        exact absurd hds.1 (by decide)
  rw [jsParseIntAfterSign, if_neg hhex, parseDec]
  simp [htw]

/-- `parseInt` is a number (not `NaN`) on every decimal integer string. -/
theorem jsParseInt_of_decInt {s : String} (h : isDecIntStr s = true) :
    ∃ v : Int, jsParseInt s = some v := by
  unfold isDecIntStr at h
  by_cases hsgn : s.data.head? = some '-' ∨ s.data.head? = some '+'
  · rw [if_pos hsgn] at h
    simp only [Bool.and_eq_true, Bool.not_eq_true'] at h
    obtain ⟨hne, hall⟩ := h
    rcases hd : s.data with _ | ⟨c, cs⟩
    · simp [hd] at hsgn
    · rw [hd] at hsgn hne hall
      simp only [List.tail_cons] at hne hall
      rcases hcs : cs with _ | ⟨d, ds⟩
      · simp [hcs] at hne
      · subst hcs
        simp only [List.all_cons, Bool.and_eq_true] at hall
        obtain ⟨hd1, hall'⟩ := hall
        have hc : c = '-' ∨ c = '+' := by simpa using hsgn
        have hws : jsWs c = false := by rcases hc with rfl | rfl <;> decide
        unfold jsParseInt
        rw [hd, List.dropWhile_cons, hws]
        simp only [Bool.false_eq_true, if_false]
        rcases hc with rfl | rfl
        · rw [jsParseIntAfterWs, if_pos (by simp), List.tail_cons,
            jsParseIntAfterSign_digits true hd1 hall']
          exact ⟨_, rfl⟩
        · rw [jsParseIntAfterWs, if_neg (by simp), if_pos (by simp), List.tail_cons,
            jsParseIntAfterSign_digits false hd1 hall']
          exact ⟨_, rfl⟩
  · rw [if_neg hsgn] at h
    simp only [Bool.and_eq_true, Bool.not_eq_true'] at h
    obtain ⟨hne, hall⟩ := h
    rcases hd : s.data with _ | ⟨c, cs⟩
    · rw [hd] at hne; simp at hne
    · rw [hd] at hsgn hall
      simp only [List.all_cons, Bool.and_eq_true] at hall
      obtain ⟨hd1, hall'⟩ := hall
      have hws : jsWs c = false := jsWs_eq_false_of_isDigit hd1
      have hb := toNat_bounds_of_isDigit hd1
      unfold jsParseInt
      rw [hd, List.dropWhile_cons, hws]
      simp only [Bool.false_eq_true, if_false]
      rw [jsParseIntAfterWs,
        if_neg (show ¬ (c :: cs).head? = some '-' by
          simp only [List.head?_cons, Option.some_inj]
          rintro rfl
          exact absurd hb (by decide)),
        if_neg (show ¬ (c :: cs).head? = some '+' by
          simp only [List.head?_cons, Option.some_inj]
          rintro rfl
          exact absurd hb (by decide)),
        jsParseIntAfterSign_digits false hd1 hall']
      exact ⟨_, rfl⟩

/-- C9: when the `limit` query parameter is absent or a decimal integer
string, the `first` value the order-list route sends upstream is a number of
at most 100 (20 when absent) and the one the simple-list route sends is a
number of at most 10 (5 when absent). -/
theorem C9_upstream_page_size_bounds (lp : Option String)
    (h : lp = none ∨ ∃ s, lp = some s ∧ isDecIntStr s = true) :
    (∃ n : Int, orderListLimit lp = some n ∧ n ≤ 100) ∧
    (∃ n : Int, simpleListLimit lp = some n ∧ n ≤ 10) ∧
    (lp = none → orderListLimit lp = some 20 ∧ simpleListLimit lp = some 5) := by
  rcases h with rfl | ⟨s, rfl, hs⟩
  · exact ⟨⟨20, by decide, by norm_num⟩, ⟨5, by decide, by norm_num⟩,
      fun _ => ⟨by decide, by decide⟩⟩
  · have hne : s ≠ "" := by rintro rfl; exact absurd hs (by decide)
    obtain ⟨v, hv⟩ := jsParseInt_of_decInt hs
    refine ⟨⟨min v 100, ?_, min_le_right _ _⟩, ⟨min v 10, ?_, min_le_right _ _⟩, by simp⟩
    · simp [orderListLimit, hne, hv]
    · simp [simpleListLimit, hne, hv]

/-- C9 witness: the bounds at the concrete parameter `limit=7` and at an
absent parameter. -/
theorem C9_upstream_page_size_bounds_witness :
    ((∃ n : Int, orderListLimit (some "7") = some n ∧ n ≤ 100) ∧
     (∃ n : Int, simpleListLimit (some "7") = some n ∧ n ≤ 10) ∧
     (some "7" = none → orderListLimit (some "7") = some 20 ∧
       simpleListLimit (some "7") = some 5)) ∧
    ((∃ n : Int, orderListLimit none = some n ∧ n ≤ 100) ∧
     (∃ n : Int, simpleListLimit none = some n ∧ n ≤ 10) ∧
     (none = (none : Option String) → orderListLimit none = some 20 ∧
       simpleListLimit none = some 5)) :=
  ⟨C9_upstream_page_size_bounds (some "7") (Or.inr ⟨"7", rfl, by decide⟩),
   C9_upstream_page_size_bounds none (Or.inl rfl)⟩

/-! ## The placeholder SVG generator `generateQRCodeSVG`
from `src/app/routes/api.orders.$id.qrcode.tsx` lines 74–116.

All interpolated numbers are JS floats; the embedding computes them exactly
in `ℚ` (`cellSize = size / 25` and its small integer multiples) and
abstracts JS number-to-string formatting as a parameter `fmt : ℚ → String`,
applied at every interpolation site.  Every claim below holds for every
formatter.  `data + x + y` concatenates the decimal renderings of the loop
counters, i.e. `toString x`/`toString y`. -/

/-- The cell condition of the pattern loop:
`simpleHash(data + x + y) % 2 === 0`. -/
def cellBlack (data : String) (x y : Nat) : Bool :=
  simpleHash (data ++ toString x ++ toString y) % 2 == 0

/-- One black cell rect of the pattern loop. -/
def rectCell (fmt : ℚ → String) (cs : ℚ) (x y : Nat) : String :=
  "<rect x=\"" ++ fmt ((x : ℚ) * cs) ++ "\" y=\"" ++ fmt ((y : ℚ) * cs) ++ "\" width=\"" ++
    fmt cs ++ "\" height=\"" ++ fmt cs ++ "\" fill=\"black\"/>"

/-- The source's nested `for (y) for (x)` loops accumulating `pattern`. -/
def qrPattern (fmt : ℚ → String) (data : String) (cs : ℚ) : String :=
  (List.range 25).foldl (fun acc y =>
    (List.range 25).foldl (fun acc2 x =>
      if cellBlack data x y then acc2 ++ rectCell fmt cs x y else acc2) acc) ""

/-- Concatenation of a list of strings. -/
def strConcat (l : List String) : String := l.foldr (· ++ ·) ""

/-- The pattern as the claim words it: a 25-by-25 grid in which exactly the
cells with an even hash are drawn, row by row. -/
def qrPatternSpec (fmt : ℚ → String) (data : String) (cs : ℚ) : String :=
  strConcat ((List.range 25).map fun y =>
    strConcat (((List.range 25).filter fun x => cellBlack data x y).map fun x =>
      rectCell fmt cs x y))

/-- JS `String.prototype.trim`'s whitespace set (ASCII part, NBSP, BOM). -/
def jsTrimWs (c : Char) : Bool :=
  c.toNat = 32 || c.toNat = 9 || c.toNat = 10 || c.toNat = 13 || c.toNat = 11 ||
    c.toNat = 12 || c.toNat = 160 || c.toNat = 65279

/-- JS `String.prototype.trim`. -/
def jsTrim (s : String) : String :=
  ⟨((s.data.dropWhile jsTrimWs).reverse.dropWhile jsTrimWs).reverse⟩

/-- JS `data.replace('#', '')`: remove the first `#`, if any. -/
def jsReplaceFirstHash : List Char → List Char
  | [] => []
  | c :: cs => if c = '#' then cs else c :: jsReplaceFirstHash cs

/-- The `Order #...` label text of the SVG. -/
def orderLabel (data : String) : String := ⟨jsReplaceFirstHash data.data⟩

/-- The source's `finderPattern` template literal, verbatim: the hard-coded
7/5/3-module corner squares at the three QR corners
(`gridSize - 7 = 18`, `gridSize - 6 = 19`, `gridSize - 5 = 20`). -/
def finderPatternStr (fmt : ℚ → String) (cs : ℚ) : String :=
  "\n    <rect x=\"0\" y=\"0\" width=\"" ++ fmt (cs * 7) ++ "\" height=\"" ++ fmt (cs * 7) ++
  "\" fill=\"black\"/>\n    <rect x=\"" ++ fmt cs ++ "\" y=\"" ++ fmt cs ++ "\" width=\"" ++
  fmt (cs * 5) ++ "\" height=\"" ++ fmt (cs * 5) ++ "\" fill=\"white\"/>\n    <rect x=\"" ++
  fmt (cs * 2) ++ "\" y=\"" ++ fmt (cs * 2) ++ "\" width=\"" ++ fmt (cs * 3) ++
  "\" height=\"" ++ fmt (cs * 3) ++ "\" fill=\"black\"/>\n    \n    <rect x=\"" ++
  fmt (cs * 18) ++ "\" y=\"0\" width=\"" ++ fmt (cs * 7) ++ "\" height=\"" ++ fmt (cs * 7) ++
  "\" fill=\"black\"/>\n    <rect x=\"" ++ fmt (cs * 19) ++ "\" y=\"" ++ fmt cs ++
  "\" width=\"" ++ fmt (cs * 5) ++ "\" height=\"" ++ fmt (cs * 5) ++
  "\" fill=\"white\"/>\n    <rect x=\"" ++ fmt (cs * 20) ++ "\" y=\"" ++ fmt (cs * 2) ++
  "\" width=\"" ++ fmt (cs * 3) ++ "\" height=\"" ++ fmt (cs * 3) ++
  "\" fill=\"black\"/>\n    \n    <rect x=\"0\" y=\"" ++ fmt (cs * 18) ++ "\" width=\"" ++
  fmt (cs * 7) ++ "\" height=\"" ++ fmt (cs * 7) ++ "\" fill=\"black\"/>\n    <rect x=\"" ++
  fmt cs ++ "\" y=\"" ++ fmt (cs * 19) ++ "\" width=\"" ++ fmt (cs * 5) ++ "\" height=\"" ++
  fmt (cs * 5) ++ "\" fill=\"white\"/>\n    <rect x=\"" ++ fmt (cs * 2) ++ "\" y=\"" ++
  fmt (cs * 20) ++ "\" width=\"" ++ fmt (cs * 3) ++ "\" height=\"" ++ fmt (cs * 3) ++
  "\" fill=\"black\"/>\n  "

/-- The returned template literal after `.trim()` removes its fixed leading
`"\n    "` and trailing `"\n  "`. -/
def svgCore (fmt : ℚ → String) (data : String) (size : ℚ) : String :=
  let cs := size / 25
  "<svg" ++ (" width=\"" ++ fmt size ++ "\" height=\"" ++ fmt size ++
    "\" xmlns=\"http://www.w3.org/2000/svg\">\n      <rect width=\"" ++ fmt size ++
    "\" height=\"" ++ fmt size ++ "\" fill=\"white\"/>\n      " ++ qrPattern fmt data cs ++
    "\n      " ++ finderPatternStr fmt cs ++ "\n      <text x=\"" ++ fmt (size / 2) ++
    "\" y=\"" ++ fmt (size - 10) ++
    "\" text-anchor=\"middle\" font-family=\"Arial\" font-size=\"10\" fill=\"gray\">Order #" ++
    orderLabel data ++ "</text>\n    ") ++ "</svg>"

/-- `generateQRCodeSVG`: the untrimmed template (fixed `"\n    "` head and
`"\n  "` tail around the core) passed through `.trim()`. -/
def generateQRCodeSVG (fmt : ℚ → String) (data : String) (size : ℚ) : String :=
  jsTrim ("\n    " ++ svgCore fmt data size ++ "\n  ")

theorem foldl_filter_append (p : Nat → Bool) (f : Nat → String) (l : List Nat) (a : String) :
    l.foldl (fun acc x => if p x then acc ++ f x else acc) a
      = a ++ strConcat ((l.filter p).map f) := by
  induction l generalizing a with
  | nil => simp [strConcat]
  | cons x xs ih =>
    by_cases hp : p x
    · simp only [List.foldl_cons, hp, if_true, ih, List.filter_cons, List.map_cons]
      show (a ++ f x) ++ strConcat ((xs.filter p).map f) =
        a ++ (f x ++ strConcat ((xs.filter p).map f))
      rw [String.append_assoc]
    · simp [List.foldl_cons, hp, ih, List.filter_cons]

/-- The nested pattern loops compute exactly the claim's grid comprehension. -/
theorem qrPattern_eq_spec (fmt : ℚ → String) (data : String) (cs : ℚ) :
    qrPattern fmt data cs = qrPatternSpec fmt data cs := by
  suffices h : ∀ (l : List Nat) (a : String),
      l.foldl (fun acc y =>
        (List.range 25).foldl (fun acc2 x =>
          if cellBlack data x y then acc2 ++ rectCell fmt cs x y else acc2) acc) a
        = a ++ strConcat (l.map fun y =>
            strConcat (((List.range 25).filter fun x => cellBlack data x y).map fun x =>
              rectCell fmt cs x y)) by
    have h2 := h (List.range 25) ""
    simpa [qrPattern, qrPatternSpec] using h2
  intro l
  induction l with
  | nil => intro a; simp [strConcat]
  | cons y ys ih =>
    intro a
    rw [List.foldl_cons, foldl_filter_append, ih, List.map_cons]
    show _ = a ++ (_ ++ strConcat _)
    rw [String.append_assoc]

/-- `.trim()` on the fixed template shape only strips the constant ends. -/
theorem jsTrim_wrap (m : String) :
    jsTrim ("\n    " ++ ("<svg" ++ m ++ "</svg>") ++ "\n  ") = "<svg" ++ m ++ "</svg>" := by
  apply String.ext
  simp +decide [jsTrim, List.dropWhile_cons]

theorem generateQRCodeSVG_eq_core (fmt : ℚ → String) (data : String) (size : ℚ) :
    generateQRCodeSVG fmt data size = svgCore fmt data size :=
  jsTrim_wrap _

/-- The finder-square block is always present in the output, verbatim. -/
theorem finderSquares_present (fmt : ℚ → String) (data : String) (size : ℚ) :
    ∃ l r, (generateQRCodeSVG fmt data size).data =
      l ++ (finderPatternStr fmt (size / 25)).data ++ r := by
  rw [generateQRCodeSVG_eq_core]
  refine ⟨("<svg" ++ " width=\"" ++ fmt size ++ "\" height=\"" ++ fmt size ++
    "\" xmlns=\"http://www.w3.org/2000/svg\">\n      <rect width=\"" ++ fmt size ++
    "\" height=\"" ++ fmt size ++ "\" fill=\"white\"/>\n      " ++
    qrPattern fmt data (size / 25) ++ "\n      ").data,
    ("\n      <text x=\"" ++ fmt (size / 2) ++ "\" y=\"" ++ fmt (size - 10) ++
    "\" text-anchor=\"middle\" font-family=\"Arial\" font-size=\"10\" fill=\"gray\">Order #" ++
    orderLabel data ++ "</text>\n    " ++ "</svg>").data, ?_⟩
  set_option maxRecDepth 4096 in
  simp only [svgCore, String.data_append, List.append_assoc]

/-- The output as the claim describes it: a white `size × size` background
rect followed by the grid comprehension (plus the finder block and label the
source also appends). -/
def svgGridSpec (fmt : ℚ → String) (data : String) (size : ℚ) : String :=
  let cs := size / 25
  "<svg" ++ (" width=\"" ++ fmt size ++ "\" height=\"" ++ fmt size ++
    "\" xmlns=\"http://www.w3.org/2000/svg\">\n      <rect width=\"" ++ fmt size ++
    "\" height=\"" ++ fmt size ++ "\" fill=\"white\"/>\n      " ++ qrPatternSpec fmt data cs ++
    "\n      " ++ finderPatternStr fmt cs ++ "\n      <text x=\"" ++ fmt (size / 2) ++
    "\" y=\"" ++ fmt (size - 10) ++
    "\" text-anchor=\"middle\" font-family=\"Arial\" font-size=\"10\" fill=\"gray\">Order #" ++
    orderLabel data ++ "</text>\n    ") ++ "</svg>"

/-- C3: for every formatter, data string and size, the generator emits the
deterministic placeholder: a white `size × size` background carrying the
25-by-25 grid whose cell `(x, y)` is black exactly when
`simpleHash(data + x + y)` is even, and equal inputs give character-identical
output. -/
theorem C3_svg_placeholder_grid (fmt : ℚ → String) (data : String) (size : ℚ) :
    generateQRCodeSVG fmt data size = svgGridSpec fmt data size ∧
    (∀ x y : Nat, cellBlack data x y = true ↔
      simpleHash (data ++ toString x ++ toString y) % 2 = 0) ∧
    ∀ (d2 : String) (s2 : ℚ), data = d2 → size = s2 →
      generateQRCodeSVG fmt data size = generateQRCodeSVG fmt d2 s2 := by
  refine ⟨?_, fun x y => by simp [cellBlack], fun d2 s2 hd hs => by rw [hd, hs]⟩
  rw [generateQRCodeSVG_eq_core]
  simp [svgCore, svgGridSpec, qrPattern_eq_spec]

/-- C3 witness: the grid refinement, cell rule and determinism at the
concrete input `("A", 25)` with the exact rational formatter. -/
theorem C3_svg_placeholder_grid_witness :
    generateQRCodeSVG (fun q => toString q) "A" 25 =
      svgGridSpec (fun q => toString q) "A" 25 ∧
    (cellBlack "A" 0 0 = true ↔ simpleHash ("A" ++ toString 0 ++ toString 0) % 2 = 0) ∧
    generateQRCodeSVG (fun q => toString q) "A" 25 =
      generateQRCodeSVG (fun q => toString q) "A" 25 :=
  ⟨(C3_svg_placeholder_grid (fun q => toString q) "A" 25).1,
   (C3_svg_placeholder_grid (fun q => toString q) "A" 25).2.1 0 0,
   (C3_svg_placeholder_grid (fun q => toString q) "A" 25).2.2 "A" 25 rfl rfl⟩

/-- The output contains the QR-standard corner finder squares: the source's
hard-coded block of nine rects (7-module dark, 5-module light, 3-module dark
at each of three corners) occurs verbatim as a substring. -/
def hasCornerFinderSquares (fmt : ℚ → String) (size : ℚ) (svg : String) : Prop :=
  ∃ l r, svg.data = l ++ (finderPatternStr fmt (size / 25)).data ++ r

/-- C4 counterexample: at the concrete input `data = "A"`, `size = 200`, the
generated SVG does contain the QR-standard corner finder squares, refuting
the claim that no output has them. -/
theorem C4_counterexample_finder_squares_present :
    hasCornerFinderSquares (fun q => toString q) 200
      (generateQRCodeSVG (fun q => toString q) "A" 200) :=
  finderSquares_present (fun q => toString q) "A" 200

/-- C4 (amended): for every formatter, data string and size, the SVG produced
by `generateQRCodeSVG` DOES contain the QR-standard corner finder squares —
a hard-coded 7/5/3-module block at the three QR corners is unconditionally
appended, independent of the data (decorative, not derived from any data
encoding). -/
theorem C4_svg_contains_hardcoded_finder_squares
    (fmt : ℚ → String) (data : String) (size : ℚ) :
    hasCornerFinderSquares fmt size (generateQRCodeSVG fmt data size) :=
  finderSquares_present fmt data size

/-! ## Generate-then-parse round trip
The QR route (`api.orders.$id.qrcode.tsx` lines 27–45) embeds, for an order
id, one of three payloads: `#<id>` (`simple`, the default),
`https://admin.shopify.com/store/your-store/orders/<id>` (`url`), or
`JSON.stringify({orderId, type: 'shopify_order', timestamp})` (`json`).
`jsonQrData` reproduces the `JSON.stringify` output (keys in insertion
order, no added whitespace, nothing to escape); the timestamp
`new Date().toISOString()` is a parameter constrained to its character
repertoire (no quote, backslash, slash or control character). -/

/-- A character `JSON.stringify` emits verbatim inside a string literal and
`JSON.parse` accepts verbatim: not a quote, not a backslash, not a control
character. -/
def plainChar (c : Char) : Bool := c ≠ '"' && c ≠ '\\' && 0x20 ≤ c.toNat

theorem parseStringBody_plain {content : List Char} (h : content.all plainChar = true)
    (rest : List Char) :
    parseStringBody (content ++ '"' :: rest) = some (content, rest) := by
  induction content with
  | nil =>
    simp only [List.nil_append]
    rw [parseStringBody.eq_def]
    dsimp only
    rw [if_pos rfl]
  | cons c cs ih =>
    simp only [List.all_cons, Bool.and_eq_true] at h
    obtain ⟨hc, hcs⟩ := h
    simp only [plainChar, Bool.and_eq_true, decide_eq_true_eq, bne_iff_ne, ne_eq] at hc
    simp only [List.cons_append]
    rw [parseStringBody.eq_def]
    dsimp only
    rw [if_neg hc.1.1, if_neg hc.1.2, if_pos hc.2, ih hcs]
    rfl

theorem plainChar_of_isDigit {c : Char} (h : c.isDigit = true) : plainChar c = true := by
  have hb := toNat_bounds_of_isDigit h
  simp only [plainChar, Bool.and_eq_true, bne_iff_ne, ne_eq, decide_eq_true_eq]
  refine ⟨⟨?_, ?_⟩, by omega⟩
  · rintro rfl; exact absurd hb (by decide)
  · rintro rfl; exact absurd hb (by decide)

theorem dropPat_subset {pat s r : List Char} (h : dropPat pat s = some r) :
    ∀ c ∈ pat, c ∈ s := by
  induction pat generalizing s with
  | nil => intro c hc; simp at hc
  | cons p ps ih =>
    intro c hc
    rcases s with _ | ⟨a, as⟩
    · simp [dropPat] at h
    · simp only [dropPat] at h
      by_cases hpa : p = a
      · rw [if_pos hpa] at h
        rcases List.mem_cons.mp hc with rfl | hc2
        · exact List.mem_cons.mpr (Or.inl hpa)
        · exact List.mem_cons.mpr (Or.inr (ih h c hc2))
      · rw [if_neg hpa] at h; exact absurd h (by simp)

/-- A pattern containing `/` can never match in a slash-free string. -/
theorem searchDigitsAfter_eq_none {pat s : List Char} (hp : '/' ∈ pat)
    (hs : ∀ c ∈ s, c ≠ '/') : searchDigitsAfter pat s = none := by
  induction s with
  | nil => rfl
  | cons c cs ih =>
    have hcs : ∀ x ∈ cs, x ≠ '/' := fun x hx => hs x (List.mem_cons.mpr (Or.inr hx))
    rcases h : dropPat pat (c :: cs) with _ | r
    · simp only [searchDigitsAfter, h]
      exact ih hcs
    · have hmem := dropPat_subset h '/' hp
      exact absurd hmem (by
        intro hmem2
        exact hs '/' hmem2 rfl)

/-- The `json`-format payload: `JSON.stringify` of
`{orderId: <id>, type: 'shopify_order', timestamp: <ts>}`. -/
def jsonQrData (id ts : String) : String :=
  "\x7b\"orderId\":\"" ++ id ++ "\",\"type\":\"shopify_order\",\"timestamp\":\"" ++ ts ++
    "\"\x7d"

/-- Parsing the `json` payload yields the three-member object, for any fuel
reserve. -/
theorem parseValue_jsonQrData {id ts : String}
    (hid : id.data.all plainChar = true) (hts : ts.data.all plainChar = true) (f : Nat) :
    parseValue (f + 5) (jsonQrData id ts).data =
      some (.jobj [("orderId", .jstr id), ("type", .jstr "shopify_order"),
        ("timestamp", .jstr ts)], []) := by
  set_option maxRecDepth 16384 in
  simp +decide [jsonQrData, String.data_append, parseValue, parseMembers,
    parseStringBody, parseStringBody_plain hid, parseStringBody_plain hts, isJsonWs]

/-- The `simple` payload `#<id>` parses back to the id (pattern 1 fires). -/
theorem parseQRCode_simple {id : String} (h1 : id ≠ "")
    (h2 : id.data.all Char.isDigit = true) :
    parseQRCode ("#" ++ id) = some (.jstr id) := by
  have hne : id.data.isEmpty = false := by
    rcases hd : id.data with _ | ⟨c, cs⟩
    · exact absurd (String.ext (by simp [hd])) h1
    · rfl
  have hmm : hashMatch ("#" ++ id) = some ⟨id.data⟩ := by
    rw [hashMatch.eq_def]
    simp [String.data_append, hne, h2]
  rw [parseQRCode, hmm]

/-- The `url` payload parses back to the id (pattern 3 fires at the single
`/orders/` occurrence of the admin URL). -/
theorem parseQRCode_url {id : String} (h1 : id ≠ "")
    (h2 : id.data.all Char.isDigit = true) :
    parseQRCode ("https://admin.shopify.com/store/your-store/orders/" ++ id) =
      some (.jstr id) := by
  have hne : id.data.isEmpty = false := by
    rcases hd : id.data with _ | ⟨c, cs⟩
    · exact absurd (String.ext (by simp [hd])) h1
    · rfl
  have htw : id.data.takeWhile Char.isDigit = id.data :=
    List.takeWhile_eq_self_iff.mpr (List.all_eq_true.mp h2)
  have hmm : hashMatch ("https://admin.shopify.com/store/your-store/orders/" ++ id) = none := by
    rw [hashMatch.eq_def]
    simp +decide [String.data_append]
  have hnm : numberMatch ("https://admin.shopify.com/store/your-store/orders/" ++ id) =
      false := by
    simp +decide [numberMatch, String.data_append]
  have hs3 : searchDigitsAfter "/orders/".data
      ("https://admin.shopify.com/store/your-store/orders/" ++ id).data = some id.data := by
    set_option maxRecDepth 8192 in
    simp +decide [String.data_append, searchDigitsAfter, dropPat, htw, hne]
  rw [parseQRCode, hmm, hnm]
  simp only [Bool.false_eq_true, if_false]
  rw [hs3]

/-- The `json` payload parses back to the id (patterns 1–4 miss, pattern 5
finds the truthy `orderId` member). -/
theorem parseQRCode_json {id ts : String} (h1 : id ≠ "")
    (h2 : id.data.all Char.isDigit = true)
    (hts : ts.data.all (fun c => plainChar c && c != '/') = true) :
    parseQRCode (jsonQrData id ts) = some (.jstr id) := by
  have hid : id.data.all plainChar = true :=
    List.all_eq_true.mpr fun c hc => plainChar_of_isDigit (List.all_eq_true.mp h2 c hc)
  have htsp : ts.data.all plainChar = true := by
    refine List.all_eq_true.mpr fun c hc => ?_
    have := List.all_eq_true.mp hts c hc
    simp only [Bool.and_eq_true] at this
    exact this.1
  have htsns : ∀ c ∈ ts.data, c ≠ '/' := by
    intro c hc
    have := List.all_eq_true.mp hts c hc
    simp only [Bool.and_eq_true, bne_iff_ne, ne_eq] at this
    exact this.2
  have hnoslash : ∀ c ∈ (jsonQrData id ts).data, c ≠ '/' := by
    intro c hc
    simp only [jsonQrData, String.data_append, List.mem_append] at hc
    rcases hc with ((((h | h) | h) | h) | h)
    · exact (by decide : ∀ x ∈ ("\x7b\"orderId\":\"" : String).data, x ≠ '/') c h
    · have hb := toNat_bounds_of_isDigit (List.all_eq_true.mp h2 c h)
      rintro rfl
      exact absurd hb (by decide)
    · exact (by decide :
        ∀ x ∈ ("\",\"type\":\"shopify_order\",\"timestamp\":\"" : String).data, x ≠ '/') c h
    · exact htsns c h
    · exact (by decide : ∀ x ∈ ("\"\x7d" : String).data, x ≠ '/') c h
  have hmm : hashMatch (jsonQrData id ts) = none := by
    rw [hashMatch.eq_def]
    simp +decide [jsonQrData, String.data_append]
  have hnm : numberMatch (jsonQrData id ts) = false := by
    simp +decide [numberMatch, jsonQrData, String.data_append]
  have hs3 : searchDigitsAfter "/orders/".data (jsonQrData id ts).data = none :=
    searchDigitsAfter_eq_none (by decide) hnoslash
  have hs4 : searchDigitsAfter "gid://shopify/Order/".data (jsonQrData id ts).data = none :=
    searchDigitsAfter_eq_none (by decide) hnoslash
  have hlen : (jsonQrData id ts).length + 1 = (id.length + ts.length + 48) + 5 := by
    simp only [jsonQrData, String.length_append,
      (show ("\x7b\"orderId\":\"" : String).length = 12 from rfl),
      (show ("\",\"type\":\"shopify_order\",\"timestamp\":\"" : String).length = 38 from rfl),
      (show ("\"\x7d" : String).length = 2 from rfl)]
    omega
  have hjp : jsonParse (jsonQrData id ts) =
      some (.jobj [("orderId", .jstr id), ("type", .jstr "shopify_order"),
        ("timestamp", .jstr ts)]) := by
    rw [jsonParse, hlen, parseValue_jsonQrData hid htsp]
    rfl
  rw [parseQRCode, hmm, hnm]
  simp only [Bool.false_eq_true, if_false]
  rw [hs3, hs4, hjp]
  simp +decide [firstTruthyOf, jsGetField, jsTruthy, h1]

/-- C2: generate-then-parse round trip — for every all-digit non-empty order
id, `parseQRCode` recovers exactly the id from each of the three payloads the
QR route embeds: the `simple` payload `#<id>`, the `url` payload
`https://admin.shopify.com/store/your-store/orders/<id>`, and the `json`
payload whose `orderId` field is the id (for any ISO-timestamp-like `ts`
containing no quote, backslash, slash or control character). -/
theorem C2_generate_then_parse_round_trip (id ts : String)
    (h1 : id ≠ "") (h2 : id.data.all Char.isDigit = true)
    (hts : ts.data.all (fun c => plainChar c && c != '/') = true) :
    parseQRCode ("#" ++ id) = some (.jstr id) ∧
    parseQRCode ("https://admin.shopify.com/store/your-store/orders/" ++ id) =
      some (.jstr id) ∧
    parseQRCode (jsonQrData id ts) = some (.jstr id) :=
  ⟨parseQRCode_simple h1 h2, parseQRCode_url h1 h2, parseQRCode_json h1 h2 hts⟩

/-- C2 witness: the round trip at the concrete id `1179` and a concrete ISO
timestamp. -/
theorem C2_generate_then_parse_round_trip_witness :
    parseQRCode ("#" ++ "1179") = some (.jstr "1179") ∧
    parseQRCode ("https://admin.shopify.com/store/your-store/orders/" ++ "1179") =
      some (.jstr "1179") ∧
    parseQRCode (jsonQrData "1179" "2024-06-01T00:00:00.000Z") = some (.jstr "1179") :=
  C2_generate_then_parse_round_trip "1179" "2024-06-01T00:00:00.000Z"
    (by decide) (by decide) (by decide)

/-! ## The offline manager
from `src/unnamed/part_003` (`OfflineManager.tsx`).  React state updates
become explicit state passing; every `localStorage` call in the source is
commented out, which the model reflects by carrying an untouched `storage`
component. -/

/-- A cached order of the offline manager (`CachedOrder` in `src/unnamed/part_003`). -/
structure CachedOrder where
  id : String
  orderNumber : String
  customer : String
  total : String
  status : String
  cachedAt : String
  lastSynced : Option String
  deriving DecidableEq, Repr

/-- The sync status record (`SyncStatus` in the source). -/
structure SyncStatus where
  isOnline : Bool
  lastSync : Option String
  pendingSync : Nat
  totalCached : Nat
  deriving DecidableEq, Repr

/-- The offline manager's React state, plus a model of the browser's
`localStorage` (key-value pairs).  Every persistence call in the source is
commented out, so no operation may touch `storage`; carrying it in the state
makes that frame condition statable. -/
structure OfflineState where
  cachedOrders : List CachedOrder
  syncStatus : SyncStatus
  isSyncing : Bool
  syncLog : List String
  storage : List (String × String)
  deriving DecidableEq, Repr

/-- `updateSyncStatus(updates)`: merge the partial update into the status;
the `localStorage.setItem` in the source is commented out. -/
def updateSyncStatus (f : SyncStatus → SyncStatus) (st : OfflineState) : OfflineState :=
  { st with syncStatus := f st.syncStatus }

/-- `addSyncLog(message)`: prepend `[timestamp] message`, keep the newest 50;
the `localStorage.setItem` is commented out. -/
def addSyncLog (stamp msg : String) (st : OfflineState) : OfflineState :=
  { st with syncLog := (("[" ++ stamp ++ "] " ++ msg) :: st.syncLog).take 50 }

/-- One `setCachedOrders` call of the sync loop: mark the order with the
given id as synced at the given time. -/
def markSynced (oid stamp : String) (l : List CachedOrder) : List CachedOrder :=
  l.map fun o => if o.id = oid then { o with lastSynced := some stamp } else o

/-- One iteration of `syncData`'s `for` loop over the pending orders (the
`await`ed `setTimeout` is a pure delay): mark the order synced, log it. -/
def syncStep (clock logClock : Nat → String) (acc : OfflineState) (p : Nat × CachedOrder) :
    OfflineState :=
  addSyncLog (logClock p.1) ("✅ 注文 " ++ p.2.orderNumber ++ " を同期しました")
    { acc with cachedOrders := markSynced p.2.id (clock p.1) acc.cachedOrders }

/-- `syncData` from `src/unnamed/part_003` lines 192–235: no-op when
offline (only a toast); otherwise mark every pending order synced with a
per-iteration timestamp, then set `lastSync` and zero `pendingSync`.
`clock`/`logClock` and the explicit stamps model the `new Date()` calls. -/
def syncData (clock logClock : Nat → String) (startLogStamp endStamp endLogStamp : String)
    (st : OfflineState) : OfflineState :=
  if st.syncStatus.isOnline = false then st
  else
    let pending := st.cachedOrders.filter (fun o => o.lastSynced.isNone)
    let st2 := addSyncLog startLogStamp "🔄 データ同期を開始しました"
      { st with isSyncing := true }
    let st3 := pending.enum.foldl (syncStep clock logClock) st2
    let st4 := updateSyncStatus
      (fun ss => { ss with lastSync := some endStamp, pendingSync := 0 }) st3
    let st5 := addSyncLog endLogStamp
      ("🎉 データ同期が完了しました (" ++ toString pending.length ++ "件)") st4
    { st5 with isSyncing := false }

/-- All fields other than `lastSynced` agree. -/
def KeepsFields (o o' : CachedOrder) : Prop :=
  o'.id = o.id ∧ o'.orderNumber = o.orderNumber ∧ o'.customer = o.customer ∧
    o'.total = o.total ∧ o'.status = o.status ∧ o'.cachedAt = o.cachedAt

/-- Fields preserved and a set `lastSynced` never unset. -/
def MonoSync (o o' : CachedOrder) : Prop :=
  KeepsFields o o' ∧ (o.lastSynced.isSome = true → o'.lastSynced.isSome = true)

theorem monoSync_refl (o : CachedOrder) : MonoSync o o :=
  ⟨⟨rfl, rfl, rfl, rfl, rfl, rfl⟩, id⟩

theorem monoSync_trans {a b c : CachedOrder} (h1 : MonoSync a b) (h2 : MonoSync b c) :
    MonoSync a c := by
  obtain ⟨⟨f1, f2, f3, f4, f5, f6⟩, m1⟩ := h1
  obtain ⟨⟨g1, g2, g3, g4, g5, g6⟩, m2⟩ := h2
  exact ⟨⟨g1.trans f1, g2.trans f2, g3.trans f3, g4.trans f4, g5.trans f5, g6.trans f6⟩,
    fun h => m2 (m1 h)⟩

theorem forall₂_comp {α : Type} (R : α → α → Prop)
    (hR : ∀ a b c, R a b → R b c → R a c) :
    ∀ {l1 l2 l3 : List α}, List.Forall₂ R l1 l2 → List.Forall₂ R l2 l3 →
      List.Forall₂ R l1 l3 := by
  intro l1 l2 l3 h12 h23
  induction h12 generalizing l3 with
  | nil => cases h23; exact List.Forall₂.nil
  | cons hab htl ih =>
    cases h23 with
    | cons hbc htl2 => exact List.Forall₂.cons (hR _ _ _ hab hbc) (ih htl2)

theorem markSynced_mono (oid stamp : String) (l : List CachedOrder) :
    List.Forall₂ MonoSync l (markSynced oid stamp l) := by
  induction l with
  | nil => exact List.Forall₂.nil
  | cons o os ih =>
    simp only [markSynced, List.map_cons]
    refine List.Forall₂.cons ?_ (by simpa [markSynced] using ih)
    by_cases h : o.id = oid
    · rw [if_pos h]
      exact ⟨⟨rfl, rfl, rfl, rfl, rfl, rfl⟩, fun _ => rfl⟩
    · rw [if_neg h]
      exact monoSync_refl o


/-- The orders component of the sync loop. -/
def ordersFold (clock : Nat → String) (todo : List (Nat × CachedOrder))
    (cur : List CachedOrder) : List CachedOrder :=
  todo.foldl (fun l p => markSynced p.2.id (clock p.1) l) cur

theorem syncFold_components (clock logClock : Nat → String) :
    ∀ (todo : List (Nat × CachedOrder)) (st : OfflineState),
      (todo.foldl (syncStep clock logClock) st).cachedOrders =
        ordersFold clock todo st.cachedOrders ∧
      (todo.foldl (syncStep clock logClock) st).storage = st.storage ∧
      (todo.foldl (syncStep clock logClock) st).syncStatus = st.syncStatus ∧
      (todo.foldl (syncStep clock logClock) st).isSyncing = st.isSyncing := by
  intro todo
  induction todo with
  | nil => intro st; exact ⟨rfl, rfl, rfl, rfl⟩
  | cons p ps ih =>
    intro st
    have h := ih (syncStep clock logClock st p)
    simpa [syncStep, addSyncLog, ordersFold] using h

theorem fold_mono (clock : Nat → String) :
    ∀ (todo : List (Nat × CachedOrder)) (cur : List CachedOrder),
      List.Forall₂ MonoSync cur (ordersFold clock todo cur) := by
  intro todo
  induction todo with
  | nil =>
    intro cur
    exact List.forall₂_same.mpr fun o _ => monoSync_refl o
  | cons p ps ih =>
    intro cur
    exact forall₂_comp MonoSync (fun a b c hab hbc => monoSync_trans hab hbc)
      (markSynced_mono p.2.id (clock p.1) cur) (ih _)

theorem markSynced_covers {oid stamp : String} {l : List CachedOrder} :
    ∀ o' ∈ markSynced oid stamp l, o'.id = oid → o'.lastSynced.isSome = true := by
  intro o' ho' hid
  simp only [markSynced, List.mem_map] at ho'
  obtain ⟨o, _, rfl⟩ := ho'
  by_cases h : o.id = oid
  · rw [if_pos h]; rfl
  · rw [if_neg h] at hid
    exact absurd hid h

theorem markSynced_preserves_cover {x oid stamp : String} {l : List CachedOrder}
    (h : ∀ o ∈ l, o.id = x → o.lastSynced.isSome = true) :
    ∀ o' ∈ markSynced oid stamp l, o'.id = x → o'.lastSynced.isSome = true := by
  intro o' ho' hid
  simp only [markSynced, List.mem_map] at ho'
  obtain ⟨o, ho, rfl⟩ := ho'
  by_cases hc : o.id = oid
  · rw [if_pos hc]; rfl
  · rw [if_neg hc] at hid ⊢
    exact h o ho hid

theorem fold_preserves_cover (clock : Nat → String) {x : String} :
    ∀ (todo : List (Nat × CachedOrder)) (cur : List CachedOrder),
      (∀ o ∈ cur, o.id = x → o.lastSynced.isSome = true) →
      ∀ o' ∈ ordersFold clock todo cur, o'.id = x → o'.lastSynced.isSome = true := by
  intro todo
  induction todo with
  | nil => intro cur h; exact h
  | cons p ps ih =>
    intro cur h
    exact ih _ (markSynced_preserves_cover h)

theorem fold_covers (clock : Nat → String) {x : String} :
    ∀ (todo : List (Nat × CachedOrder)) (cur : List CachedOrder),
      x ∈ todo.map (fun p => p.2.id) →
      ∀ o' ∈ ordersFold clock todo cur, o'.id = x → o'.lastSynced.isSome = true := by
  intro todo
  induction todo with
  | nil => intro cur h; simp at h
  | cons p ps ih =>
    intro cur hx
    rcases List.mem_cons.mp hx with hx1 | hx2
    · subst hx1
      exact fold_preserves_cover clock ps _ markSynced_covers
    · exact ih _ hx2

theorem mem_map_snd_enumFrom {o : CachedOrder} :
    ∀ (l : List CachedOrder) (n : Nat), o ∈ l →
      o.id ∈ (l.enumFrom n).map (fun p => p.2.id) := by
  intro l
  induction l with
  | nil => intro n h; simp at h
  | cons a as ih =>
    intro n h
    rcases List.mem_cons.mp h with rfl | h2
    · simp [List.enumFrom]
    · simp only [List.enumFrom, List.map_cons, List.mem_cons]
      exact Or.inr (ih (n + 1) h2)


/-- `cacheOrder(orderData)`: prepend the order (deduplicated by id) and
refresh the counters; the `localStorage.setItem` is commented out. -/
def cacheOrder (now logStamp oid onum ocust ototal ostat : String)
    (st : OfflineState) : OfflineState :=
  let newOrder : CachedOrder := ⟨oid, onum, ocust, ototal, ostat, now, none⟩
  let newOrders := newOrder :: st.cachedOrders.filter (fun o => o.id ≠ oid)
  let st2 := updateSyncStatus (fun ss => { ss with
    totalCached := newOrders.length,
    pendingSync := (newOrders.filter (fun o => o.lastSynced.isNone)).length })
    { st with cachedOrders := newOrders }
  addSyncLog logStamp ("📦 注文 " ++ onum ++ " をキャッシュしました") st2

/-- `clearCache`: reset orders, log and counters; the `localStorage.removeItem`
calls are commented out. -/
def clearCache (logStamp : String) (st : OfflineState) : OfflineState :=
  let st2 := updateSyncStatus
    (fun ss => { ss with totalCached := 0, pendingSync := 0, lastSync := none })
    { st with cachedOrders := [], syncLog := [] }
  addSyncLog logStamp "🗑️ キャッシュをクリアしました" st2

/-- `checkOnlineStatus`: the `navigator.onLine` read is commented out and
replaced by the constant `true` (mock). -/
def checkOnlineStatus (logStamp : String) (st : OfflineState) : OfflineState :=
  let isOnline := true
  let st2 := updateSyncStatus (fun ss => { ss with isOnline := isOnline }) st
  addSyncLog logStamp
    ("🌐 ネットワーク状態: " ++ (if isOnline then "オンライン" else "オフライン")) st2

/-- `loadCachedData`: the `localStorage.getItem` reads are commented out; the
state is seeded with the two hard-coded mock orders (`t1`–`t3` model the
`Date.now()`-derived stamps; the mock's single synced order makes its
`lastSynced` the most recent sync). -/
def loadCachedData (t1 t2 t3 logStamp : String) (st : OfflineState) : OfflineState :=
  let mock : List CachedOrder :=
    [⟨"1001", "#1001", "田中太郎", "¥5,400", "配送準備中", t1, some t2⟩,
     ⟨"1002", "#1002", "佐藤花子", "¥12,800", "配送完了", t3, none⟩]
  let st2 := updateSyncStatus (fun ss => { ss with
    totalCached := mock.length,
    pendingSync := (mock.filter (fun o => o.lastSynced.isNone)).length,
    lastSync := some t2 }) { st with cachedOrders := mock }
  addSyncLog logStamp "📊 キャッシュデータを読み込みました" st2

/-- `testConnection`: a simulated delay then a status update (mock). -/
def testConnection (l1 l2 : String) (st : OfflineState) : OfflineState :=
  let st1 := addSyncLog l1 "🔍 ネットワーク接続をテスト中..." st
  let st2 := updateSyncStatus (fun ss => { ss with isOnline := true }) st1
  addSyncLog l2 "✅ ネットワーク接続テスト成功" st2

/-- What claim C8 asserts per order: fields preserved, and previously
unsynced orders now carry a `lastSynced` stamp. -/
def SyncedOrder (o o' : CachedOrder) : Prop :=
  KeepsFields o o' ∧ (o.lastSynced = none → o'.lastSynced.isSome = true)

/-- Components of `syncData` in the online case. -/
theorem syncData_online (clock logClock : Nat → String) (s1 s2 s3 : String)
    (st : OfflineState) (h : st.syncStatus.isOnline = true) :
    (syncData clock logClock s1 s2 s3 st).cachedOrders =
      ordersFold clock ((st.cachedOrders.filter (fun o => o.lastSynced.isNone)).enum)
        st.cachedOrders ∧
    (syncData clock logClock s1 s2 s3 st).syncStatus =
      { st.syncStatus with lastSync := some s2, pendingSync := 0 } ∧
    (syncData clock logClock s1 s2 s3 st).storage = st.storage := by
  have hcomp := syncFold_components clock logClock
    ((st.cachedOrders.filter (fun o => o.lastSynced.isNone)).enum)
    (addSyncLog s1 "🔄 データ同期を開始しました" { st with isSyncing := true })
  simp only [addSyncLog] at hcomp
  simp only [syncData, h, Bool.true_eq_false, if_false, updateSyncStatus, addSyncLog]
  refine ⟨?_, ?_, ?_⟩
  · exact hcomp.1
  · rw [hcomp.2.2.1, h]
  · exact hcomp.2.1

/-- C8: the offline manager's sync is a simulated delay with no persistence —
when offline, `syncData` changes nothing; when online, it only sets
`lastSynced` on every previously unsynced cached order (all other order
fields unchanged, pointwise), zeroes `pendingSync` and sets `lastSync`; and
no offline-manager operation writes to any storage outside the component's
in-memory state (the `storage` component is untouched by every operation). -/
theorem C8_offline_manager_sync (clock logClock : Nat → String) (s1 s2 s3 : String)
    (st : OfflineState) :
    (st.syncStatus.isOnline = false → syncData clock logClock s1 s2 s3 st = st) ∧
    (st.syncStatus.isOnline = true →
      List.Forall₂ SyncedOrder st.cachedOrders
        (syncData clock logClock s1 s2 s3 st).cachedOrders ∧
      (syncData clock logClock s1 s2 s3 st).syncStatus.pendingSync = 0 ∧
      (syncData clock logClock s1 s2 s3 st).syncStatus.lastSync = some s2) ∧
    (syncData clock logClock s1 s2 s3 st).storage = st.storage ∧
    (∀ f, (updateSyncStatus f st).storage = st.storage) ∧
    (∀ a b, (addSyncLog a b st).storage = st.storage) ∧
    (∀ a b c d e f g, (cacheOrder a b c d e f g st).storage = st.storage) ∧
    (∀ a, (clearCache a st).storage = st.storage) ∧
    (∀ a, (checkOnlineStatus a st).storage = st.storage) ∧
    (∀ a b c d, (loadCachedData a b c d st).storage = st.storage) ∧
    (∀ a b, (testConnection a b st).storage = st.storage) := by
  refine ⟨fun h => by simp [syncData, h], fun h => ?_,
    ?_, fun f => rfl, fun a b => rfl, fun a b c d e f g => rfl, fun a => rfl,
    fun a => rfl, fun a b c d => rfl, fun a b => rfl⟩
  · obtain ⟨ho, hs, hst⟩ := syncData_online clock logClock s1 s2 s3 st h
    refine ⟨?_, by rw [hs], by rw [hs]⟩
    rw [ho]
    have hmono := fold_mono clock
      ((st.cachedOrders.filter (fun o => o.lastSynced.isNone)).enum) st.cachedOrders
    rw [List.forall₂_iff_get] at hmono ⊢
    obtain ⟨hlen, hget⟩ := hmono
    refine ⟨hlen, fun i h1 h2 => ?_⟩
    obtain ⟨hkeeps, _⟩ := hget i h1 h2
    refine ⟨hkeeps, fun hnone => ?_⟩
    have hpend : st.cachedOrders.get ⟨i, h1⟩ ∈
        st.cachedOrders.filter (fun o => o.lastSynced.isNone) :=
      List.mem_filter.mpr ⟨List.get_mem _ _ _, by
        simp only [List.get_eq_getElem] at hnone
        simp [hnone]⟩
    have hid : (st.cachedOrders.get ⟨i, h1⟩).id ∈
        ((st.cachedOrders.filter (fun o => o.lastSynced.isNone)).enum).map
          (fun p => p.2.id) := by
      rw [List.enum]
      exact mem_map_snd_enumFrom _ 0 hpend
    exact fold_covers clock _ _ hid _ (List.get_mem _ _ _) hkeeps.1
  · by_cases h : st.syncStatus.isOnline = true
    · exact (syncData_online clock logClock s1 s2 s3 st h).2.2
    · simp only [Bool.not_eq_true] at h
      simp [syncData, h]

/-- A concrete online state with one pending order, for the witness. -/
def sampleOnlineState : OfflineState :=
  ⟨[⟨"1001", "#1001", "A", "¥1", "s", "t0", none⟩], ⟨true, none, 1, 1⟩, false, [], []⟩

/-- A concrete offline state for the witness. -/
def sampleOfflineState : OfflineState :=
  ⟨[⟨"1001", "#1001", "A", "¥1", "s", "t0", none⟩], ⟨false, none, 1, 1⟩, false, [], []⟩

/-- C8 witness: the theorem at concrete online and offline states, the
online/offline hypotheses discharged by evaluation. -/
theorem C8_offline_manager_sync_witness :
    (List.Forall₂ SyncedOrder sampleOnlineState.cachedOrders
      (syncData (fun _ => "t") (fun _ => "u") "a" "b" "c" sampleOnlineState).cachedOrders ∧
     (syncData (fun _ => "t") (fun _ => "u") "a" "b" "c"
       sampleOnlineState).syncStatus.pendingSync = 0 ∧
     (syncData (fun _ => "t") (fun _ => "u") "a" "b" "c"
       sampleOnlineState).syncStatus.lastSync = some "b") ∧
    syncData (fun _ => "t") (fun _ => "u") "a" "b" "c" sampleOfflineState =
      sampleOfflineState ∧
    (syncData (fun _ => "t") (fun _ => "u") "a" "b" "c" sampleOnlineState).storage =
      sampleOnlineState.storage :=
  ⟨(C8_offline_manager_sync (fun _ => "t") (fun _ => "u") "a" "b" "c"
      sampleOnlineState).2.1 rfl,
   (C8_offline_manager_sync (fun _ => "t") (fun _ => "u") "a" "b" "c"
      sampleOfflineState).1 rfl,
   (C8_offline_manager_sync (fun _ => "t") (fun _ => "u") "a" "b" "c"
      sampleOnlineState).2.2.1⟩

/-! ## Route handler response kinds
One model per route handler: an inductive of the handler's return branches
(in source order) mapped to the response's status and Content-Type.  Remix's
`json(...)` always yields `application/json`; a `new Response(string, ...)`
without an explicit header yields `text/plain;charset=UTF-8` per the Fetch
specification.  Bodies are elided except for the QR route, whose body kind
claim C5 constrains. -/

/-- Content-Type of Remix `json(...)`. -/
def ctJson : String := "application/json"

/-- Content-Type of the QR route's success response. -/
def ctSvg : String := "image/svg+xml"

/-- Content-Type the Fetch spec gives a plain string `Response` body. -/
def ctText : String := "text/plain;charset=UTF-8"

/-- Status and Content-Type of a JSON route response (body elided). -/
structure RespMeta where
  status : Nat
  contentType : String
  deriving DecidableEq, Repr

/-- A full response with body, for the QR route. -/
structure RouteResponse where
  status : Nat
  contentType : String
  body : String
  deriving DecidableEq, Repr

/-- Branches of the QR-code loader (`api.orders.$id.qrcode.tsx`): the
`catch` branch (authentication or URL failure), the missing-parameter guard,
and the success path with its query parameters. -/
inductive QrBranch where
  | thrown (msg : String)
  | missingId
  | ok (orderId format : String) (size : ℚ) (ts : String)

/-- The payload the QR route embeds, by `format` (default `simple`). -/
def qrPayload (orderId format ts : String) : String :=
  if format = "json" then jsonQrData orderId ts
  else if format = "url" then "https://admin.shopify.com/store/your-store/orders/" ++ orderId
  else "#" ++ orderId

/-- The QR-code loader's response: plain-text errors, SVG on success. -/
def qrcodeLoader (fmt : ℚ → String) : QrBranch → RouteResponse
  | .thrown msg => ⟨500, ctText, "QRコード生成エラー: " ++ msg⟩
  | .missingId => ⟨400, ctText, "注文IDが指定されていません"⟩
  | .ok orderId format size ts =>
    ⟨200, ctSvg, generateQRCodeSVG fmt (qrPayload orderId format ts) size⟩

/-- Branches of the order-by-id loader (`src/unnamed/part_001`). -/
inductive OrderByIdBranch where
  | missingId | gqlErrors | notFound | ok | thrown

/-- The order-by-id loader (`part_001`): JSON in every branch. -/
def orderByIdLoader : OrderByIdBranch → RespMeta
  | .missingId => ⟨400, ctJson⟩
  | .gqlErrors => ⟨400, ctJson⟩
  | .notFound => ⟨404, ctJson⟩
  | .ok => ⟨200, ctJson⟩
  | .thrown => ⟨500, ctJson⟩

/-- The other order-by-id loader (`api.orders.$id.tsx`): same branch shape,
JSON in every branch. -/
def orderByIdBasicLoader : OrderByIdBranch → RespMeta
  | .missingId => ⟨400, ctJson⟩
  | .gqlErrors => ⟨400, ctJson⟩
  | .notFound => ⟨404, ctJson⟩
  | .ok => ⟨200, ctJson⟩
  | .thrown => ⟨500, ctJson⟩

/-- Branches of the order-list loader (`src/unnamed/part_000`, second
document). -/
inductive OrderListBranch where
  | gqlErrors | noData | ok | thrown

/-- The order-list loader: JSON in every branch. -/
def orderListLoader : OrderListBranch → RespMeta
  | .gqlErrors => ⟨400, ctJson⟩
  | .noData => ⟨500, ctJson⟩
  | .ok => ⟨200, ctJson⟩
  | .thrown => ⟨500, ctJson⟩

/-- Branches of the simple-list loader (`api.orders.simple-list.tsx`); the
HTTP-error branch forwards the upstream status. -/
inductive SimpleListBranch where
  | httpError (upstreamStatus : Nat) | gqlErrors | noData | ok | thrown

/-- The simple-list loader: JSON in every branch. -/
def simpleListLoader : SimpleListBranch → RespMeta
  | .httpError s => ⟨s, ctJson⟩
  | .gqlErrors => ⟨400, ctJson⟩
  | .noData => ⟨404, ctJson⟩
  | .ok => ⟨200, ctJson⟩
  | .thrown => ⟨500, ctJson⟩

/-- Branches of the order-search loader (`api.graphql-test.tsx`, second
document). -/
inductive SearchBranch where
  | missingQuery | gqlErrors | emptyResults | ok | thrown

/-- The order-search loader: JSON in every branch. -/
def orderSearchLoader : SearchBranch → RespMeta
  | .missingQuery => ⟨400, ctJson⟩
  | .gqlErrors => ⟨400, ctJson⟩
  | .emptyResults => ⟨200, ctJson⟩
  | .ok => ⟨200, ctJson⟩
  | .thrown => ⟨500, ctJson⟩

/-- Branches of the custom-GraphQL test action (`api.graphql-test.tsx`). -/
inductive GraphqlTestBranch where
  | missingQuery | ok | thrown

/-- The custom-GraphQL test action: JSON in every branch. -/
def graphqlTestAction : GraphqlTestBranch → RespMeta
  | .missingQuery => ⟨400, ctJson⟩
  | .ok => ⟨200, ctJson⟩
  | .thrown => ⟨500, ctJson⟩

/-- Its GET loader returns the fixed usage JSON unconditionally. -/
def graphqlTestUsageLoader : RespMeta := ⟨200, ctJson⟩

/-- A generic success/caught-error branch pair. -/
inductive SimpleBranch where
  | ok | thrown

/-- The access-rights debug loader (`api.debug.tsx`, first document):
auth-failure JSON 400, otherwise JSON. -/
inductive DebugBranch where
  | authFailed | ok | thrown

/-- The access-rights debug loader: JSON in every branch. -/
def debugLoader : DebugBranch → RespMeta
  | .authFailed => ⟨400, ctJson⟩
  | .ok => ⟨200, ctJson⟩
  | .thrown => ⟨500, ctJson⟩

/-- The POS debug-data loader (`api.debug.tsx`, second document): JSON in
both branches (the catch also answers 200). -/
def posDebugLoader : SimpleBranch → RespMeta
  | .ok => ⟨200, ctJson⟩
  | .thrown => ⟨200, ctJson⟩

/-- The auth test loader (`api.test-auth.tsx`): JSON in every branch. -/
def testAuthLoader : DebugBranch → RespMeta
  | .authFailed => ⟨400, ctJson⟩
  | .ok => ⟨200, ctJson⟩
  | .thrown => ⟨500, ctJson⟩

/-- The simple-test loader (`api.simple-test.tsx`): hand-built `Response`
with an explicit `application/json` header in both branches. -/
def simpleTestLoader : SimpleBranch → RespMeta
  | .ok => ⟨200, ctJson⟩
  | .thrown => ⟨500, ctJson⟩

/-- The basic-test loader (`src/unnamed/part_002`, first document):
hand-built JSON `Response` in both branches. -/
def basicTestLoader : SimpleBranch → RespMeta
  | .ok => ⟨200, ctJson⟩
  | .thrown => ⟨500, ctJson⟩

/-- The basic-API loader (`part_002`, second document): JSON in both
branches. -/
def basicApiLoader : SimpleBranch → RespMeta
  | .ok => ⟨200, ctJson⟩
  | .thrown => ⟨500, ctJson⟩

/-- The performance dashboard loader (`part_000`, first document): JSON in
both branches (the catch also answers 200). -/
def perfLoader : SimpleBranch → RespMeta
  | .ok => ⟨200, ctJson⟩
  | .thrown => ⟨200, ctJson⟩

/-- The access-permission detail test loader (`api.orders.$id.qrcode.tsx`,
second document, lines 178–356): the four inner query tests catch their own
errors into the result object, so the handler returns JSON 200 on the main
path and JSON 500 from the outer catch. -/
def permissionTestLoader : SimpleBranch → RespMeta
  | .ok => ⟨200, ctJson⟩
  | .thrown => ⟨500, ctJson⟩

/-- The debug page loader (`app.debug.tsx`): JSON in both branches (the
catch also answers 200, wrapping the error in a `debugData` object). -/
def appDebugLoader : SimpleBranch → RespMeta
  | .ok => ⟨200, ctJson⟩
  | .thrown => ⟨200, ctJson⟩

/-- The debug dashboard loader (`app.debug-dashboard.tsx`): every inner
try/catch (authentication, shop query, orders query) only records into
`debugData`, and the single exit is the unconditional `return json(debugData)`
— JSON 200 for every request. -/
def debugDashboardLoader : RespMeta := ⟨200, ctJson⟩

/-- C5 counterexample: the QR endpoint does not return SVG for every
request — on the missing-parameter branch it returns a plain-text body with
status 400, and on the caught-error branch a plain-text body with status
500, refuting the claim as stated. -/
theorem C5_counterexample_qr_error_not_svg :
    (qrcodeLoader (fun q => toString q) .missingId).contentType ≠ ctSvg ∧
    (qrcodeLoader (fun q => toString q) .missingId).contentType = ctText ∧
    (qrcodeLoader (fun q => toString q) .missingId).status = 400 ∧
    (qrcodeLoader (fun q => toString q) (.thrown "x")).contentType = ctText := by
  refine ⟨?_, rfl, rfl, rfl⟩
  decide

/-- C5 (amended): every route handler returns JSON (Content-Type
`application/json`) in every branch, including every error branch; the QR
endpoint returns the SVG placeholder body with Content-Type `image/svg+xml`
on its success path only — its two error branches (missing parameter, caught
exception) return plain-text bodies with statuses 400 and 500. -/
theorem C5_routes_json_qr_svg_on_success (fmt : ℚ → String) :
    (∀ b, (orderByIdLoader b).contentType = ctJson) ∧
    (∀ b, (orderByIdBasicLoader b).contentType = ctJson) ∧
    (∀ b, (orderListLoader b).contentType = ctJson) ∧
    (∀ b, (simpleListLoader b).contentType = ctJson) ∧
    (∀ b, (orderSearchLoader b).contentType = ctJson) ∧
    (∀ b, (graphqlTestAction b).contentType = ctJson) ∧
    graphqlTestUsageLoader.contentType = ctJson ∧
    (∀ b, (debugLoader b).contentType = ctJson) ∧
    (∀ b, (posDebugLoader b).contentType = ctJson) ∧
    (∀ b, (testAuthLoader b).contentType = ctJson) ∧
    (∀ b, (simpleTestLoader b).contentType = ctJson) ∧
    (∀ b, (basicTestLoader b).contentType = ctJson) ∧
    (∀ b, (basicApiLoader b).contentType = ctJson) ∧
    (∀ b, (perfLoader b).contentType = ctJson) ∧
    (∀ b, (permissionTestLoader b).contentType = ctJson) ∧
    (∀ b, (appDebugLoader b).contentType = ctJson) ∧
    debugDashboardLoader.contentType = ctJson ∧
    (∀ orderId format size ts,
      (qrcodeLoader fmt (.ok orderId format size ts)).contentType = ctSvg ∧
      (qrcodeLoader fmt (.ok orderId format size ts)).body =
        generateQRCodeSVG fmt (qrPayload orderId format ts) size) ∧
    (qrcodeLoader fmt .missingId).contentType = ctText ∧
    (qrcodeLoader fmt .missingId).status = 400 ∧
    (∀ msg, (qrcodeLoader fmt (.thrown msg)).contentType = ctText ∧
      (qrcodeLoader fmt (.thrown msg)).status = 500) := by
  refine ⟨fun b => ?_, fun b => ?_, fun b => ?_, fun b => ?_, fun b => ?_, fun b => ?_,
    rfl, fun b => ?_, fun b => ?_, fun b => ?_, fun b => ?_, fun b => ?_, fun b => ?_,
    fun b => ?_, fun b => ?_, fun b => ?_, rfl,
    fun orderId format size ts => ⟨rfl, rfl⟩, rfl, rfl,
    fun msg => ⟨rfl, rfl⟩⟩ <;> cases b <;> rfl

end PosQr
